/-
Verification of the pynescript parse-orchestration pipeline and AST dump
serializer, as implemented in:
  - src/pynescript/ast/helpers.py          (dump / _dump_impl / _dump_value_impl)
  - src/pynescript/ast/parser/helpers.py   (parse_string / parse_file / parse)

The Python code is shallowly embedded: pure functions become Lean functions,
the process-wide recursion ceiling and the printed diagnostic lines become
explicit state threaded through the definitions, and raised exceptions become
`Except` error values.  External collaborators (the pyparsing grammar
expressions, `pyparsing.testing.with_line_numbers`, the filesystem and the
byte decoder) are parameters of the embedding; the few helpers that live in
modules of this repository outside the given sources are modelled from the
spec and are marked as such in their doc comments.
-/
import Mathlib

/-! ## Python string primitives

Lean translations of the Python string operations the sources use.  They are
defined over `String.data` (the character list) so that everything reduces by
`rfl`/`decide` on concrete inputs.  -/

/-- Python whitespace characters, as recognized by `str.lstrip()`. -/
def pyIsSpace (c : Char) : Bool :=
  c = ' ' || c = '\t' || c = '\n' || c = '\r' || c = '\x0b' || c = '\x0c'

/-- Python `s.lstrip()`: drop leading whitespace. -/
def pyLstrip (s : String) : String :=
  ⟨s.data.dropWhile pyIsSpace⟩

/-- Python `s.startswith(p)`. -/
def pyStartsWith (s p : String) : Bool :=
  p.data.isPrefixOf s.data

/-- Python `s[:n]` for a nonnegative `n`. -/
def pyTake (s : String) (n : Nat) : String :=
  ⟨s.data.take n⟩

/-- Python `s.split(":", 1)[0]`: the part of `s` before the first colon
(the whole of `s` when it has no colon). -/
def pyBeforeColon (s : String) : String :=
  ⟨s.data.takeWhile (fun c => c ≠ ':')⟩

/-- Helper for `pySplitNl`, working on character lists. -/
def pySplitNlChars : List Char → List (List Char)
  | [] => [[]]
  | c :: cs =>
    let rest := pySplitNlChars cs
    if c = '\n' then [] :: rest
    else
      match rest with
      | r :: rs => (c :: r) :: rs
      | [] => [[c]]

/-- Python `s.split("\n")`: split on every newline, never collapsing. -/
def pySplitNl (s : String) : List String :=
  (pySplitNlChars s.data).map fun l => ⟨l⟩

/-- Helper for `pyExpandtabs`: `col` is the current column. A tab advances to
the next multiple of `width` (or disappears when `width = 0`, as in Python);
a newline or carriage return resets the column. -/
def pyExpandtabsChars (width : Nat) : List Char → Nat → List Char
  | [], _ => []
  | c :: cs, col =>
    if c = '\t' then
      if width = 0 then pyExpandtabsChars width cs col
      else
        let pad := width - col % width
        List.replicate pad ' ' ++ pyExpandtabsChars width cs (col + pad)
    else if c = '\n' || c = '\r' then c :: pyExpandtabsChars width cs 0
    else c :: pyExpandtabsChars width cs (col + 1)

/-- Python `s.expandtabs(width)`. -/
def pyExpandtabs (s : String) (width : Nat) : String :=
  ⟨pyExpandtabsChars width s.data 0⟩

/-- Python string repetition `s * n` (for a nonnegative count). -/
def strMul (s : String) (n : Nat) : String :=
  String.join (List.replicate n s)

/-- Python `sep.join(l)`. -/
def pyJoin (sep : String) : List String → String
  | [] => ""
  | [x] => x
  | x :: y :: xs => x ++ sep ++ pyJoin sep (y :: xs)

/-- Modelled from the spec: `calc_width` from `pynescript.ast.parser.utils`
(that module is not under src/; only its caller is).  Per spec §4.5 step 3 it
computes the rendered width of a string under the configured tab width, where
a tab expands to the next multiple of the tab width, not to a fixed count of
spaces. -/
def calc_width (s : String) (tab_width : Nat) : Nat :=
  s.data.foldl
    (fun col c =>
      if c = '\t' then
        if tab_width = 0 then col else col + (tab_width - col % tab_width)
      else col + 1)
    0

/-! ## The generic AST value model for `dump`

`pynescript.ast.helpers.dump` consumes AST nodes polymorphically: a node
exposes a class name and an ordered field list via `iter_fields`, and a field
value is a scalar, a nested node, or a Python list of values (spec §3).  A
scalar is carried together with its Python `repr` string; the `repr` of a
node (used by the compact branches, which format values with `{value!r}`) is
whatever the external AST class provides, so it is a parameter `nrepr` of the
embedding. -/

mutual

inductive DValue : Type where
  | scalar (r : String)
  | node (n : DNode)
  | seq (vs : List DValue)

inductive DNode : Type where
  | mk (className : String) (fields : List (String × DValue))

end

/-- Python `node.__class__.__name__`. -/
def DNode.className : DNode → String
  | .mk c _ => c

/-- The call `iter_fields(node)`, as the ordered field list.  The source converts this
to a `dict` (`dict(iter_fields(node))`); an AST node's declared field names
are distinct, so the dict conversion preserves the pair list and its order,
and the embedding keeps the list as is. -/
def DNode.fields : DNode → List (String × DValue)
  | .mk _ f => f

mutual

/-- Python `repr(value)` for a dump value: a scalar carries its own repr, a
node's repr is the external `nrepr`, and a list reprs as `[r1, r2, ...]`. -/
def pyRepr (nrepr : DNode → String) : DValue → String
  | .scalar r => r
  | .node n => nrepr n
  | .seq vs => "[" ++ pyJoin (", ") (pyReprList nrepr vs) ++ "]"

/-- Python `repr` mapped over the elements of a Python list. -/
def pyReprList (nrepr : DNode → String) : List DValue → List String
  | [] => []
  | v :: vs => pyRepr nrepr v :: pyReprList nrepr vs

end

/-- The compact single-line rendering `ClassName(name=repr, ...)` — the
`else` branch of `_dump_impl`. -/
def dump_compact_render (nrepr : DNode → String) (node : DNode) : String :=
  node.className ++ "("
    ++ pyJoin (", ") (node.fields.map fun p => p.1 ++ "=" ++ pyRepr nrepr p.2)
    ++ ")"

mutual

/-- Function `_dump_value_impl(value, indent, depth)` from src/pynescript/ast/helpers.py. -/
def dump_value_impl (nrepr : DNode → String) : DValue → String → Nat → String
  | .node n, indent, depth => dump_impl nrepr n indent depth
  | .seq (v :: vs), indent, depth =>
    -- non-empty list: one item per line between brackets
    let lines := "[" :: (dump_seq_items nrepr (v :: vs) indent depth
      ++ [strMul indent depth ++ "]"])
    pyJoin ("\n") lines
  | .seq [], _, _ => pyRepr nrepr (.seq [])
  | .scalar r, _, _ => pyRepr nrepr (.scalar r)

/-- The item lines of a non-empty list value:
`f"{indent * (depth + 1)}{_dump_value_impl(subvalue, indent, depth + 1)},"`. -/
def dump_seq_items (nrepr : DNode → String) : List DValue → String → Nat → List String
  | [], _, _ => []
  | v :: vs, indent, depth =>
    (strMul indent (depth + 1) ++ dump_value_impl nrepr v indent (depth + 1) ++ ",")
      :: dump_seq_items nrepr vs indent depth

/-- Function `_dump_impl(node, indent, depth)` from src/pynescript/ast/helpers.py.
Python truthiness `if indent and len(class_params) > 0` becomes
`indent ≠ "" ∧ fields.length > 0`. -/
def dump_impl (nrepr : DNode → String) : DNode → String → Nat → String
  | .mk class_name fields, indent, depth =>
    if indent ≠ "" ∧ fields.length > 0 then
      let lines := (class_name ++ "(") :: (dump_field_items nrepr fields indent depth
        ++ [strMul indent depth ++ ")"])
      pyJoin ("\n") lines
    else
      class_name ++ "("
        ++ pyJoin (", ") (fields.map fun p => p.1 ++ "=" ++ pyRepr nrepr p.2)
        ++ ")"

/-- The field lines of the multi-line form:
`f"{indent * (depth + 1)}{name}={_dump_value_impl(value, indent, depth + 1)},"`. -/
def dump_field_items (nrepr : DNode → String) : List (String × DValue) → String → Nat → List String
  | [], _, _ => []
  | (name, value) :: rest, indent, depth =>
    (strMul indent (depth + 1) ++ name ++ "="
        ++ dump_value_impl nrepr value indent (depth + 1) ++ ",")
      :: dump_field_items nrepr rest indent depth

end

/-- The `indent` argument of `dump`: `Optional[Union[int, str]]`. -/
inductive PyIndent : Type where
  | noneV
  | intV (i : Int)
  | strV (s : String)

/-- Function `dump(node, indent)` from src/pynescript/ast/helpers.py:
`None` becomes `0`, and an integer becomes that many spaces (Python string
repetition, so a nonpositive integer gives the empty string). -/
def dump (nrepr : DNode → String) (node : DNode) (indent : PyIndent) : String :=
  let indentStr : String :=
    match indent with
    | .noneV => strMul (" ") (0 : Int).toNat
    | .intV i => strMul (" ") i.toNat
    | .strV s => s
  dump_impl nrepr node indentStr 0

/-! ## The parse-orchestration model

`pynescript.ast.parser.helpers` orchestrates: input normalization
(`parse_file`), directive preprocessing, a recursion-limit scope around the
grammar parse, and debug diagnostics (`parse_string`), plus the `parse`
dispatcher.  The external collaborators — the pyparsing grammar expressions
`version_comment`, `comment_suppressed` and `script`, and
`pyparsing.testing.with_line_numbers` — are fields of an `Env` parameter.
The process-wide recursion ceiling and the lines written by `print` are
explicit state. -/

/-- A pyparsing `ParseException`: a 1-based line number and column measured
against the comment-free buffer, and the message text its `str()` renders. -/
structure ParseErr : Type where
  lineno : Nat
  col : Nat
  msg : String
deriving DecidableEq

/-- The root `Script` AST node (spec §3): an optional version tag and the
ordered top-level statements.  Statement nodes are atomic black boxes to the
orchestration layer and are represented by ids. -/
structure Script : Type where
  version : Option String
  body : List Nat
deriving DecidableEq

/-- Modelled from the spec: the `Script` constructor from `pynescript.ast`
(`pynescript.ast.types` is not under src/).  Per spec §3 the version tag is
attached post-hoc by the orchestration layer, not by the grammar, so a
freshly constructed `Script(body)` carries no version. -/
def mkScript (body : List Nat) : Script :=
  { version := none, body := body }

/-- A Python exception escaping the orchestration layer. -/
inductive PyExc : Type where
  | parseExc (err : ParseErr)
  | indexError
  | typeError (msg : String)
  | fileNotFound (path : String)
deriving DecidableEq

/-- The external collaborators of the orchestration layer:
`searchVersion s` is `version_comment_expr.search_string(s)` reduced to the
`.get("version")` of each match, `transformString` is
`comment_suppressed_expr.transform_string`, `parseScript lim s parse_all` is
`script_expr.parse_string(s, parse_all=parse_all)` run at ambient recursion
ceiling `lim`, and `withLineNumbers` is `pyparsing.testing.with_line_numbers`. -/
structure Env : Type where
  searchVersion : String → List (Option String)
  transformString : String → String
  parseScript : Nat → String → Bool → Except ParseErr (List Script)
  withLineNumbers : String → String

/-- Modelled from the spec: the `recursion_limit` context manager from
`pynescript.ast.parser.utils` (not under src/).  Per spec §4.3 it saves the
ambient call-stack recursion ceiling, raises it to the given ceiling for the
dynamic extent of the body, and unconditionally restores the saved value on
every exit path, including when the body raises.  The ceiling is threaded as
explicit state; the body receives the elevated ceiling. -/
def recursion_limit_context {α : Type} (ceiling : Nat) (ambient : Nat)
    (body : Nat → Except ParseErr α) : Except ParseErr α × Nat :=
  let saved := ambient
  let result := body ceiling
  (result, saved)

/-- The tab-expansion step of `parse_string`:
`if expand_tabs: source = source.expandtabs(tab_width)`. -/
def expanded_source (source : String) (expand_tabs : Bool) (tab_width : Nat) : String :=
  if expand_tabs then pyExpandtabs source tab_width else source

/-- The values the debug pre-block of `parse_string` computes before the
parse: the original source lines, the annotated listing's lines, and the
line/column offsets of the annotated listing. -/
structure DebugInfo : Type where
  source_lines : List String
  fmt_lines : List String
  startLine : Nat
  startCol : Nat
deriving DecidableEq

/-- The offset-finding loop of the debug pre-block:
`for i in range(len(source_formatted_for_debug))`, indexing
`source_lines_formatted_for_debug[i]` (an out-of-range index raises
IndexError), breaking at the first line whose `lstrip()` starts with `"1:"`;
if the loop completes without a break both offsets stay `0`.  `fuel` is the
number of loop iterations left, i.e. `len(source_formatted_for_debug) - i`. -/
def find_start_offsets (fmt_lines : List String) : Nat → Nat → Except PyExc (Nat × Nat)
  | 0, _ => .ok (0, 0)
  | fuel + 1, i =>
    match fmt_lines.get? i with
    | none => .error .indexError
    | some line =>
      if pyStartsWith (pyLstrip line) "1:" then
        .ok (i, (pyBeforeColon line).length + 1)
      else
        find_start_offsets fmt_lines fuel (i + 1)

/-- The debug pre-block of `parse_string` (run when `debug` is true, before
the grammar parse): expand tabs again, annotate with
`pyparsing.testing.with_line_numbers`, split both texts into lines, and find
where the annotated listing's own numbering starts at `"1:"`. -/
def compute_debug_info (env : Env) (source : String) (tab_width : Nat) :
    Except PyExc DebugInfo :=
  let source_formatted := env.withLineNumbers (pyExpandtabs source tab_width)
  let source_lines := pySplitNl source
  let fmt_lines := pySplitNl source_formatted
  match find_start_offsets fmt_lines source_formatted.length 0 with
  | .ok (ls, cs) => .ok ⟨source_lines, fmt_lines, ls, cs⟩
  | .error e => .error e

/-- The diagnostic-printing loop of the `except ParseException` handler:
every annotated line is printed; below the line whose display number matches
`err.lineno` a caret line and the error text are printed, indented by the
annotation column offset plus the rendered width of the original line up to
the failing column.  Accessing `source_lines[err.lineno - 1]` out of range
raises IndexError (returned as `true` in the second component), aborting the
remaining prints.  pyparsing line and column numbers are 1-based. -/
def debug_print_go (source_lines : List String) (startLine startCol : Nat)
    (err : ParseErr) (tab_width : Nat) : List String → Nat → List String × Bool
  | [], _ => ([], false)
  | formatted_line :: rest, i =>
    let lineno : Int := (i : Int) - (startLine : Int) + 1
    if (err.lineno : Int) ≠ lineno then
      let next := debug_print_go source_lines startLine startCol err tab_width rest (i + 1)
      (formatted_line :: next.1, next.2)
    else
      match source_lines.get? (err.lineno - 1) with
      | none => ([formatted_line], true)
      | some source_line =>
        let source_line_until_col := pyTake source_line (err.col - 1)
        let indent_until_col := calc_width source_line_until_col tab_width
        let arrow_indent := strMul (" ") (startCol + indent_until_col)
        let next := debug_print_go source_lines startLine startCol err tab_width rest (i + 1)
        (formatted_line :: (arrow_indent ++ "^") :: (arrow_indent ++ err.msg) :: next.1,
          next.2)

/-- The observable outcome of one orchestration call: the returned node or
escaping exception, the ambient recursion ceiling after the call, and the
lines printed to standard output during the call. -/
structure ParseOutcome : Type where
  result : Except PyExc Script
  recLimit : Nat
  output : List String

/-- Function `parse_string(source, parse_all, expand_tabs, debug, tab_width,
recursion_limit)` from src/pynescript/ast/parser/helpers.py, with ambient
recursion ceiling `ambient` on entry.  The debug pre-block runs exactly when
`debug` is true, so in the `except` handler the carried `DebugInfo` is
`some` exactly when `debug` is true, and matching on it is the `if debug:`
of the handler. -/
def parse_string (env : Env) (source : String)
    (parse_all expand_tabs debug : Bool)
    (tab_width recursion_limit ambient : Nat) : ParseOutcome :=
  -- if expand_tabs: source = source.expandtabs(tab_width)
  let source := expanded_source source expand_tabs tab_width
  -- version_results = version_comment_expr.search_string(source)
  let version_results := env.searchVersion source
  -- if version_results: script_version = version_results[0].get("version")
  let script_version : Option String :=
    match version_results with
    | [] => none
    | r :: _ => r
  -- source_without_comment = comment_suppressed_expr.transform_string(source)
  let source_without_comment := env.transformString source
  -- debug pre-block (may raise IndexError)
  match (if debug then (compute_debug_info env source tab_width).map some
         else .ok none : Except PyExc (Option DebugInfo)) with
  | .error e => ⟨.error e, ambient, []⟩
  | .ok dbgInfo =>
    -- with recursion_limit_context(recursion_limit):
    --     parse_results = script_expr.parse_string(source_without_comment, parse_all)
    let parsed := recursion_limit_context recursion_limit ambient
      (fun lim => env.parseScript lim source_without_comment parse_all)
    let ambient := parsed.2
    match parsed.1 with
    | .error err =>
      -- except ParseException as err: ... raise err
      match dbgInfo with
      | some info =>
        let printed := debug_print_go info.source_lines info.startLine info.startCol
          err tab_width info.fmt_lines 0
        ⟨if printed.2 then .error .indexError else .error (.parseExc err),
          ambient,
          "" :: "Error while parsing source:" :: printed.1⟩
      | none => ⟨.error (.parseExc err), ambient, []⟩
    | .ok parse_results =>
      -- script_node = parse_results[0] if parse_results else ast.Script([])
      let script_node : Script :=
        match parse_results with
        | node :: _ => node
        | [] => mkScript []
      -- if script_version is not None: script_node.version = script_version
      let script_node :=
        match script_version with
        | some v => { script_node with version := some v }
        | none => script_node
      ⟨.ok script_node, ambient, []⟩

/-- The argument of `parse_file` / `parse`:
`Union[str, PathLike, bytes, IOBase]`, refined by the `io` class the value
is an instance of.  `io.BytesIO` inherits `BufferedIOBase`, not
`RawIOBase`; `open(path, encoding=...)` returns a `TextIOWrapper`, which is
a `TextIOBase`. -/
inductive FileArg : Type where
  | strArg (s : String)
  | pathArg (p : String)
  | bytesArg (b : List Nat)
  | bytesBufArg (b : List Nat)
  | rawStreamArg (b : List Nat)
  | textStreamArg (s : String)
deriving DecidableEq

/-- Python `type(f)` as named inside the TypeError message. -/
def FileArg.typeName : FileArg → String
  | .strArg _ => "str"
  | .pathArg _ => "pathlib.PosixPath"
  | .bytesArg _ => "bytes"
  | .bytesBufArg _ => "_io.BytesIO"
  | .rawStreamArg _ => "_io.FileIO"
  | .textStreamArg _ => "_io.TextIOWrapper"

/-- The input-normalization chain of `parse_file`: the sequential
`isinstance` rewrites of `f`, ending with `source = f.read()` for a
`TextIOBase` and `raise TypeError(...)` otherwise.  `fsys` maps a path to
the raw bytes of an existing file; `decode` decodes bytes under an encoding
name. -/
def normalize_input (fsys : String → Option (List Nat))
    (decode : String → List Nat → String)
    (f : FileArg) (encoding : String) : Except PyExc String :=
  -- if isinstance(f, str): f = Path(f)
  let f : FileArg := match f with | .strArg s => .pathArg s | x => x
  -- if isinstance(f, Path): f = stack.enter_context(open(f, encoding=encoding))
  match (match f with
         | .pathArg p =>
           match fsys p with
           | some content => Except.ok (FileArg.textStreamArg (decode encoding content))
           | none => Except.error (PyExc.fileNotFound p)
         | x => Except.ok x) with
  | .error e => .error e
  | .ok f =>
    -- if isinstance(f, bytes): f = BytesIO(f)   (a BufferedIOBase)
    let f := match f with | .bytesArg b => FileArg.bytesBufArg b | x => x
    -- if isinstance(f, RawIOBase): f = TextIOWrapper(f, encoding=encoding)
    let f := match f with | .rawStreamArg b => FileArg.textStreamArg (decode encoding b) | x => x
    -- if isinstance(f, TextIOBase): source = f.read()
    match f with
    | .textStreamArg s => Except.ok s
    | x => Except.error (.typeError ("Unsupported argument type: " ++ x.typeName))

/-- Function `parse_file(f, encoding, ...)` from src/pynescript/ast/parser/helpers.py. -/
def parse_file (env : Env) (fsys : String → Option (List Nat))
    (decode : String → List Nat → String)
    (f : FileArg) (encoding : Option String)
    (parse_all expand_tabs debug : Bool)
    (tab_width recursion_limit ambient : Nat) : ParseOutcome :=
  -- if encoding is None: encoding = "utf-8"
  let encoding := encoding.getD ("utf-8")
  match normalize_input fsys decode f encoding with
  | .error e => ⟨.error e, ambient, []⟩
  | .ok source =>
    parse_string env source parse_all expand_tabs debug tab_width recursion_limit ambient

/-- Function `parse(source, encoding, ...)` from src/pynescript/ast/parser/helpers.py:
`if isinstance(source, str) and not Path(source).exists(): parse_string(...)
else: parse_file(...)`.  `Path(s).exists()` is modelled as `(fsys s).isSome`. -/
def parse (env : Env) (fsys : String → Option (List Nat))
    (decode : String → List Nat → String)
    (source : FileArg) (encoding : Option String)
    (parse_all expand_tabs debug : Bool)
    (tab_width recursion_limit ambient : Nat) : ParseOutcome :=
  match source with
  | .strArg s =>
    if (fsys s).isNone then
      parse_string env s parse_all expand_tabs debug tab_width recursion_limit ambient
    else
      parse_file env fsys decode (.strArg s) encoding parse_all expand_tabs debug
        tab_width recursion_limit ambient
  | other =>
    parse_file env fsys decode other encoding parse_all expand_tabs debug
      tab_width recursion_limit ambient

/-! ## Concrete environments for the witness theorems -/

/-- A grammar environment whose version search captures `"5"` and whose
script grammar yields one top-level statement. -/
def envWithDirective : Env := {
  searchVersion := fun _ => [some ("5")]
  transformString := fun s => s
  parseScript := fun _ _ _ => .ok [⟨none, [1]⟩]
  withLineNumbers := fun s => "1: " ++ s
}

/-- A grammar environment with no version directive and an empty parse
result set. -/
def envEmptyParse : Env := {
  searchVersion := fun _ => []
  transformString := fun s => s
  parseScript := fun _ _ _ => .ok []
  withLineNumbers := fun s => "1: " ++ s
}

/-- A grammar environment with no version directive and one top-level
statement. -/
def envOneStmt : Env := {
  searchVersion := fun _ => []
  transformString := fun s => s
  parseScript := fun _ _ _ => .ok [⟨none, [7]⟩]
  withLineNumbers := fun s => "1: " ++ s
}

/-- A grammar environment whose script grammar fails with a syntax error on
line 7 (out of range of a one-line source). -/
def envSyntaxErr : Env := {
  searchVersion := fun _ => []
  transformString := fun s => s
  parseScript := fun _ _ _ => .error ⟨7, 1, "boom"⟩
  withLineNumbers := fun s => "1: " ++ s
}

/-- An empty filesystem. -/
def fsysEmpty : String → Option (List Nat) := fun _ => none

/-- A trivial byte decoder. -/
def decodeZero : String → List Nat → String := fun _ _ => ""

/-! ## Ordered-occurrence predicate for the dump field order -/

/-- The relation `ContainsInOrder s ms` states that `s` decomposes as
`p0 ++ m1 ++ p1 ++ m2 ++ ... ++ mk ++ pk` for the markers `ms = [m1, ..., mk]`:
the markers occur in `s`, in the given order, as disjoint segments. -/
inductive ContainsInOrder : String → List String → Prop where
  | nil (s : String) : ContainsInOrder s []
  | cons (pre m mid : String) (ms : List String) :
      ContainsInOrder mid ms → ContainsInOrder (pre ++ m ++ mid) (m :: ms)

/-- A concrete two-field node used by witness theorems. -/
def nodeW : DNode :=
  .mk ("Script") [("version", .scalar ("None")), ("body", .seq [])]

/-! ## Theorems -/

/-- C5: for every call to `parse_string`, whether the grammar parse returns
normally or raises, the ambient process-wide recursion ceiling immediately
after the call equals its value immediately before the call: the temporary
elevation to `recursion_limit` is restored on every exit path. -/
theorem parse_string_restores_recursion_limit (env : Env) (source : String)
    (parse_all expand_tabs debug : Bool) (tab_width recursion_limit ambient : Nat) :
    (parse_string env source parse_all expand_tabs debug tab_width
        recursion_limit ambient).recLimit = ambient := by
  unfold parse_string recursion_limit_context
  dsimp only
  repeat' split
  all_goals rfl

/-- C8: `parse` dispatches on its first argument: a text string that does not
name an existing filesystem path is handed to `parse_string`; in every other
case — including a string naming an existing path — the argument goes to
`parse_file`, forwarding the same options. -/
theorem parse_dispatch_string_vs_file (env : Env) (fsys : String → Option (List Nat))
    (decode : String → List Nat → String) (source : FileArg) (encoding : Option String)
    (parse_all expand_tabs debug : Bool) (tab_width recursion_limit ambient : Nat) :
    (∀ s, source = FileArg.strArg s → fsys s = none →
      parse env fsys decode source encoding parse_all expand_tabs debug tab_width
          recursion_limit ambient
        = parse_string env s parse_all expand_tabs debug tab_width recursion_limit ambient) ∧
    (∀ s, source = FileArg.strArg s → fsys s ≠ none →
      parse env fsys decode source encoding parse_all expand_tabs debug tab_width
          recursion_limit ambient
        = parse_file env fsys decode source encoding parse_all expand_tabs debug tab_width
            recursion_limit ambient) ∧
    ((∀ s, source ≠ FileArg.strArg s) →
      parse env fsys decode source encoding parse_all expand_tabs debug tab_width
          recursion_limit ambient
        = parse_file env fsys decode source encoding parse_all expand_tabs debug tab_width
            recursion_limit ambient) := by
  refine ⟨?_, ?_, ?_⟩
  · rintro s rfl h
    simp [parse, h]
  · rintro s rfl h
    simp [parse, Option.isNone_iff_eq_none, h]
  · intro h
    cases source
    case strArg s => exact absurd rfl (h s)
    all_goals rfl

/-- Witness for C8: on the empty filesystem, parsing the text `"x"` goes to
`parse_string` with the same options. -/
theorem parse_dispatch_string_vs_file_witness :
    parse envWithDirective fsysEmpty decodeZero (.strArg ("x")) none true true false 4 1000 1000
      = parse_string envWithDirective ("x") true true false 4 1000 1000 :=
  (parse_dispatch_string_vs_file envWithDirective fsysEmpty decodeZero (.strArg ("x")) none
      true true false 4 1000 1000).1 "x" rfl rfl

/-- C1 (code bug): evaluating `parse_file` at a bytes argument.  The code
wraps the bytes in a `BytesIO`, but `BytesIO` is a `BufferedIOBase`, not a
`RawIOBase`, so the wrapped stream matches neither the `RawIOBase` nor the
`TextIOBase` branch and `parse_file` raises the unsupported-input-type
`TypeError` instead of decoding the bytes. -/
theorem parse_file_rejects_bytes :
    (parse_file envWithDirective fsysEmpty decodeZero (.bytesArg [104, 105]) none
        true true false 4 1000 1000).result
      = .error (.typeError ("Unsupported argument type: _io.BytesIO")) := rfl

/-- C3: when the grammar engine returns an empty result set, `parse_string`
does not fail: it returns a synthesized `Script` node whose statement
sequence is the empty list, and — with no directive present — with no
version set.  (When `debug` is true the pre-parse diagnostic block must
complete, which it does whenever the annotated listing is well formed.) -/
theorem parse_string_empty_results_empty_script (env : Env) (source : String)
    (parse_all expand_tabs debug : Bool) (tab_width recursion_limit ambient : Nat)
    (hparse : env.parseScript recursion_limit
        (env.transformString (expanded_source source expand_tabs tab_width)) parse_all
      = .ok [])
    (hsearch : env.searchVersion (expanded_source source expand_tabs tab_width) = [])
    (hdbg : debug = true →
      ∃ info, compute_debug_info env (expanded_source source expand_tabs tab_width) tab_width
        = .ok info) :
    (parse_string env source parse_all expand_tabs debug tab_width
        recursion_limit ambient).result
      = .ok (mkScript []) ∧ (mkScript []).version = none ∧ (mkScript []).body = [] := by
  refine ⟨?_, rfl, rfl⟩
  unfold parse_string recursion_limit_context
  dsimp only
  rw [hsearch, hparse]
  cases debug with
  | false => rfl
  | true =>
    obtain ⟨info, hinfo⟩ := hdbg rfl
    rw [hinfo]
    rfl

/-- Witness for C3: with a grammar returning no results and no directive,
`parse_string` yields the empty `Script` with no version. -/
theorem parse_string_empty_results_empty_script_witness :
    (parse_string envEmptyParse ("x") true true false 4 1000 1000).result
      = .ok (mkScript []) ∧ (mkScript []).version = none ∧ (mkScript []).body = [] :=
  parse_string_empty_results_empty_script envEmptyParse ("x") true true false 4 1000 1000
    rfl rfl (fun h => nomatch h)

/-- C10: `parse_string` writes the root node's version field only when a
version directive was found: when the source contains no directive, the node
returned by the grammar engine is passed through exactly as the grammar
produced it (its version field and every other field unchanged). -/
theorem parse_string_no_directive_passes_node_through (env : Env) (source : String)
    (parse_all expand_tabs debug : Bool) (tab_width recursion_limit ambient : Nat)
    (n : Script) (rest : List Script)
    (hsearch : env.searchVersion (expanded_source source expand_tabs tab_width) = [])
    (hparse : env.parseScript recursion_limit
        (env.transformString (expanded_source source expand_tabs tab_width)) parse_all
      = .ok (n :: rest))
    (hdbg : debug = true →
      ∃ info, compute_debug_info env (expanded_source source expand_tabs tab_width) tab_width
        = .ok info) :
    (parse_string env source parse_all expand_tabs debug tab_width
        recursion_limit ambient).result
      = .ok n := by
  unfold parse_string recursion_limit_context
  dsimp only
  rw [hsearch, hparse]
  cases debug with
  | false => rfl
  | true =>
    obtain ⟨info, hinfo⟩ := hdbg rfl
    rw [hinfo]
    rfl

/-- Witness for C10: a directive-free source with a one-node parse result
returns that node unchanged. -/
theorem parse_string_no_directive_passes_node_through_witness :
    (parse_string envOneStmt ("x") true true false 4 1000 1000).result
      = .ok ⟨none, [7]⟩ :=
  parse_string_no_directive_passes_node_through envOneStmt ("x") true true false 4 1000 1000
    ⟨none, [7]⟩ [] rfl rfl (fun h => nomatch h)

/-- C2: for every source whose (tab-expanded) text contains at least one
version directive, the `Script` node returned by `parse_string` has its
version field equal to the captured value of the first directive match,
independent of where grammar parsing began; for a source with no directive
the result has no version.  The grammar itself never attaches a version
(spec §3: the tag is attached post-hoc by the orchestration layer), which is
the hypothesis `hgram` on the external grammar engine. -/
theorem parse_string_version_from_first_directive (env : Env) (source : String)
    (parse_all expand_tabs debug : Bool) (tab_width recursion_limit ambient : Nat)
    (r : Option String) (rest : List (Option String))
    (hgram : ∀ lim s pa res, env.parseScript lim s pa = .ok res →
      ∀ nd ∈ res, nd.version = none) :
    (env.searchVersion (expanded_source source expand_tabs tab_width) = r :: rest →
      ∀ node, (parse_string env source parse_all expand_tabs debug tab_width
          recursion_limit ambient).result = .ok node → node.version = r) ∧
    (env.searchVersion (expanded_source source expand_tabs tab_width) = [] →
      ∀ node, (parse_string env source parse_all expand_tabs debug tab_width
          recursion_limit ambient).result = .ok node → node.version = none) := by
  have main : ∀ node,
      (parse_string env source parse_all expand_tabs debug tab_width
          recursion_limit ambient).result = .ok node →
      ∃ parse_results,
        env.parseScript recursion_limit
            (env.transformString (expanded_source source expand_tabs tab_width)) parse_all
          = .ok parse_results ∧
        node =
          (match (match env.searchVersion (expanded_source source expand_tabs tab_width) with
                  | [] => (none : Option String)
                  | v :: _ => v) with
           | some v =>
             { (match parse_results with | nd :: _ => nd | [] => mkScript []) with
                version := some v }
           | none => match parse_results with | nd :: _ => nd | [] => mkScript []) := by
    intro node hnode
    unfold parse_string recursion_limit_context at hnode
    dsimp only at hnode
    cases debug with
    | false =>
      simp only [Bool.false_eq_true, if_false] at hnode
      cases hps : env.parseScript recursion_limit
          (env.transformString (expanded_source source expand_tabs tab_width)) parse_all with
      | error err =>
        rw [hps] at hnode
        simp at hnode
      | ok res =>
        rw [hps] at hnode
        dsimp only at hnode
        exact ⟨res, rfl, (Except.ok.inj hnode).symm⟩
    | true =>
      simp only [if_true] at hnode
      cases hci : compute_debug_info env (expanded_source source expand_tabs tab_width)
          tab_width with
      | error e =>
        rw [hci] at hnode
        simp [Except.map] at hnode
      | ok info =>
        rw [hci] at hnode
        dsimp only [Except.map] at hnode
        cases hps : env.parseScript recursion_limit
            (env.transformString (expanded_source source expand_tabs tab_width)) parse_all with
        | error err =>
          rw [hps] at hnode
          dsimp only at hnode
          split at hnode <;> simp at hnode
        | ok res =>
          rw [hps] at hnode
          dsimp only at hnode
          exact ⟨res, rfl, (Except.ok.inj hnode).symm⟩
  constructor
  · intro hsearch node hnode
    obtain ⟨res, hps, hnd⟩ := main node hnode
    rw [hsearch] at hnd
    dsimp only at hnd
    cases r with
    | some v => subst hnd; rfl
    | none =>
      subst hnd
      cases res with
      | nil => rfl
      | cons nd tl =>
        dsimp only
        exact hgram _ _ _ _ hps nd (by simp)
  · intro hsearch node hnode
    obtain ⟨res, hps, hnd⟩ := main node hnode
    rw [hsearch] at hnd
    dsimp only at hnd
    subst hnd
    cases res with
    | nil => rfl
    | cons nd tl =>
      dsimp only
      exact hgram _ _ _ _ hps nd (by simp)

/-- Witness for C2: with a grammar whose version search captures `"5"`, the
parsed node carries version `"5"`. -/
theorem parse_string_version_from_first_directive_witness :
    Script.version ⟨some ("5"), [1]⟩ = some ("5") :=
  (parse_string_version_from_first_directive envWithDirective ("x") true true false 4 1000 1000
      (some ("5")) []
      (by
        intro lim s pa res h nd hn
        cases h
        simp at hn
        subst hn
        rfl)).1 rfl ⟨some ("5"), [1]⟩ rfl

/-- Helper: the diagnostic loop never hits the IndexError path when every
annotated line whose display number equals the failing line number has a
corresponding original source line. -/
theorem debug_print_go_no_index_error (source_lines : List String) (startLine startCol : Nat)
    (err : ParseErr) (tab_width : Nat) :
    ∀ (fmt_lines : List String) (i : Nat),
      (∀ j, j < fmt_lines.length → ((i : Int) + j - startLine + 1 = (err.lineno : Int)) →
        err.lineno - 1 < source_lines.length) →
      (debug_print_go source_lines startLine startCol err tab_width fmt_lines i).2
        = false := by
  intro fmt_lines
  induction fmt_lines with
  | nil => intro i h; rfl
  | cons line rest ih =>
    intro i h
    unfold debug_print_go
    dsimp only
    split
    · exact ih (i + 1) fun j hj heq =>
        h (j + 1) (by simpa using hj) (by push_cast at heq ⊢; omega)
    · rename _ => hne
      have heq : (i : Int) - startLine + 1 = (err.lineno : Int) := by
        have := not_not.mp hne
        omega
      have hlt : err.lineno - 1 < source_lines.length :=
        h 0 (by simp) (by push_cast; omega)
      cases hget : source_lines.get? (err.lineno - 1) with
      | none =>
        exact absurd (List.get?_eq_none.mp hget) (by omega)
      | some source_line =>
        dsimp only
        exact ih (i + 1) fun j hj hj2 =>
          h (j + 1) (by simpa using hj) (by push_cast at hj2 ⊢; omega)

/-- Helper: when no annotated line's display number equals the failing line
number, the diagnostic loop echoes the annotated lines and nothing else. -/
theorem debug_print_go_no_match (source_lines : List String) (startLine startCol : Nat)
    (err : ParseErr) (tab_width : Nat) :
    ∀ (fmt_lines : List String) (i : Nat),
      (∀ j, j < fmt_lines.length → ((i : Int) + j - startLine + 1 ≠ (err.lineno : Int))) →
      debug_print_go source_lines startLine startCol err tab_width fmt_lines i
        = (fmt_lines, false) := by
  intro fmt_lines
  induction fmt_lines with
  | nil => intro i h; rfl
  | cons line rest ih =>
    intro i h
    unfold debug_print_go
    dsimp only
    rw [if_pos, ih (i + 1) fun j hj heq =>
      h (j + 1) (by simpa using hj) (by push_cast at heq ⊢; omega)]
    have := h 0 (by simp)
    push_cast at this
    omega

/-- C4: for every input on which the grammar engine signals a syntax
failure, `parse_string` with debug enabled prints its diagnostic and then
re-raises exactly the original failure object, never converting it into a
success or a different error (given that any annotated line matching the
failing line number has a corresponding original line, which rules out the
handler's own IndexError); and when the failing line's number is out of
range against the annotated line list, no caret line is printed — the
output is exactly the header and the echoed annotated lines — and the error
still propagates. -/
theorem parse_string_debug_reraises_original (env : Env) (source : String)
    (parse_all expand_tabs : Bool) (tab_width recursion_limit ambient : Nat)
    (err : ParseErr) (info : DebugInfo)
    (hparse : env.parseScript recursion_limit
        (env.transformString (expanded_source source expand_tabs tab_width)) parse_all
      = .error err)
    (hinfo : compute_debug_info env (expanded_source source expand_tabs tab_width) tab_width
      = .ok info)
    (hsafe : ∀ j, j < info.fmt_lines.length →
      ((j : Int) - info.startLine + 1 = (err.lineno : Int)) →
      err.lineno - 1 < info.source_lines.length) :
    (parse_string env source parse_all expand_tabs true tab_width
        recursion_limit ambient).result = .error (.parseExc err) ∧
    ((∀ j, j < info.fmt_lines.length →
        ((j : Int) - info.startLine + 1 ≠ (err.lineno : Int))) →
      (parse_string env source parse_all expand_tabs true tab_width
          recursion_limit ambient).output
        = "" :: "Error while parsing source:" :: info.fmt_lines) := by
  have hfalse : (debug_print_go info.source_lines info.startLine info.startCol err
      tab_width info.fmt_lines 0).2 = false :=
    debug_print_go_no_index_error info.source_lines info.startLine info.startCol err
      tab_width info.fmt_lines 0
      (fun j hj heq => hsafe j hj (by push_cast at heq ⊢; omega))
  constructor
  · unfold parse_string recursion_limit_context
    dsimp only
    simp only [if_true]
    rw [hinfo]
    dsimp only [Except.map]
    rw [hparse]
    dsimp only
    rw [hfalse]
    rfl
  · intro hnm
    have hecho : debug_print_go info.source_lines info.startLine info.startCol err
        tab_width info.fmt_lines 0 = (info.fmt_lines, false) :=
      debug_print_go_no_match info.source_lines info.startLine info.startCol err
        tab_width info.fmt_lines 0
        (fun j hj heq => hnm j hj (by push_cast at heq ⊢; omega))
    unfold parse_string recursion_limit_context
    dsimp only
    simp only [if_true]
    rw [hinfo]
    dsimp only [Except.map]
    rw [hparse]
    dsimp only
    rw [hecho]

/-- Witness for C4: a grammar failure on line 7 of a one-line source — out
of range of the annotated listing — propagates unchanged, with no caret in
the printed output. -/
theorem parse_string_debug_reraises_original_witness :
    (parse_string envSyntaxErr ("x") true true true 4 1000 1000).result
      = .error (.parseExc ⟨7, 1, "boom"⟩) ∧
    (parse_string envSyntaxErr ("x") true true true 4 1000 1000).output
      = "" :: "Error while parsing source:" :: ["1: x"] := by
  have h := parse_string_debug_reraises_original envSyntaxErr ("x") true true 4 1000 1000
    ⟨7, 1, "boom"⟩ ⟨["x"], ["1: x"], 0, 2⟩ rfl rfl (by decide)
  exact ⟨h.1, h.2 (by decide)⟩

/-- Helper: a decomposition is preserved by prepending text. -/
theorem ContainsInOrder.append_left (pre : String) {s : String} {ms : List String}
    (h : ContainsInOrder s ms) : ContainsInOrder (pre ++ s) ms := by
  cases h with
  | nil => exact .nil _
  | cons p m mid ms h =>
    have heq : pre ++ (p ++ m ++ mid) = (pre ++ p) ++ m ++ mid := by
      simp [String.append_assoc]
    rw [heq]
    exact .cons _ _ _ _ h

/-- Helper: a decomposition is preserved by appending text. -/
theorem ContainsInOrder.append_right (suf : String) {s : String} {ms : List String}
    (h : ContainsInOrder s ms) : ContainsInOrder (s ++ suf) ms := by
  induction h with
  | nil => exact .nil _
  | cons p m mid ms h ih =>
    have heq : (p ++ m ++ mid) ++ suf = p ++ m ++ (mid ++ suf) := by
      simp [String.append_assoc]
    rw [heq]
    exact .cons _ _ _ _ ih

/-- Helper: a marker at the very front of the string. -/
theorem ContainsInOrder.head (m : String) {mid : String} {ms : List String}
    (h : ContainsInOrder mid ms) : ContainsInOrder (m ++ mid) (m :: ms) := by
  have := ContainsInOrder.cons ("") m mid ms h
  simpa [String.empty_append] using this

/-- Helper: rewriting the string of a decomposition. -/
theorem ContainsInOrder.of_eq {s t : String} {ms : List String} (h : s = t)
    (ht : ContainsInOrder t ms) : ContainsInOrder s ms := h ▸ ht

/-- Helper: `pyJoin` on a cons with a nonempty tail. -/
theorem pyJoin_cons_of_ne_nil (sep x : String) (l : List String) (h : l ≠ []) :
    pyJoin sep (x :: l) = x ++ sep ++ pyJoin sep l := by
  cases l with
  | nil => exact absurd rfl h
  | cons y ys => rfl

/-- Helper: the compact field rendering lists the `name=` markers in
declared field order. -/
theorem containsInOrder_compact_fields (nrepr : DNode → String) :
    ∀ fields : List (String × DValue),
      ContainsInOrder (pyJoin (", ") (fields.map fun p => p.1 ++ "=" ++ pyRepr nrepr p.2))
        (fields.map fun p => p.1 ++ "=") := by
  intro fields
  induction fields with
  | nil => exact .nil _
  | cons p rest ih =>
    cases rest with
    | nil =>
      dsimp [pyJoin]
      exact .head _ (.nil _)
    | cons q rs =>
      dsimp only [List.map]
      rw [pyJoin_cons_of_ne_nil _ _ _ (by simp)]
      refine ContainsInOrder.of_eq (t := (p.1 ++ "=")
        ++ ((pyRepr nrepr p.2 ++ ", ")
            ++ pyJoin (", ") ((q :: rs).map fun p => p.1 ++ "=" ++ pyRepr nrepr p.2)))
        (by simp [String.append_assoc]) ?_
      exact .head _ ((ih).append_left _)

/-- Helper: the multi-line field block (field lines then a footer line)
lists the `name=` markers in declared field order. -/
theorem containsInOrder_field_lines (nrepr : DNode → String) (ind : String) (d : Nat)
    (footer : String) :
    ∀ fields : List (String × DValue),
      ContainsInOrder (pyJoin ("\n") (dump_field_items nrepr fields ind d ++ [footer]))
        (fields.map fun p => p.1 ++ "=") := by
  intro fields
  induction fields with
  | nil => exact .nil _
  | cons p rest ih =>
    dsimp only [dump_field_items, List.map, List.cons_append]
    rw [pyJoin_cons_of_ne_nil _ _ _ (by simp)]
    refine ContainsInOrder.of_eq (t := strMul ind (d + 1) ++ (p.1 ++ "=")
      ++ (dump_value_impl nrepr p.2 ind (d + 1)
          ++ (",\n" ++ pyJoin ("\n") (dump_field_items nrepr rest ind d ++ [footer]))))
      (by simp [String.append_assoc]) ?_
    exact .cons _ _ _ _ ((ih.append_left (",\n")).append_left _)

/-- Helper: in both rendering modes, `_dump_impl` lists the `name=` markers
of a node's fields in the node's declared iteration order. -/
theorem dump_impl_fields_ordered (nrepr : DNode → String) (nd : DNode) (ind : String)
    (d : Nat) :
    ContainsInOrder (dump_impl nrepr nd ind d) (nd.fields.map fun p => p.1 ++ "=") := by
  cases nd with
  | mk c fields =>
    dsimp only [DNode.fields]
    unfold dump_impl
    dsimp only
    split
    · rw [pyJoin_cons_of_ne_nil _ _ _ (by simp)]
      exact ContainsInOrder.of_eq (by simp [String.append_assoc])
        ((containsInOrder_field_lines nrepr ind d (strMul ind d ++ ")")
            fields).append_left ((c ++ "(") ++ "\n"))
    · exact ((containsInOrder_compact_fields nrepr fields).append_left
        (c ++ "(")).append_right (")")

/-- Helper: when the indent is empty or the node has no fields, `_dump_impl`
takes the compact single-line branch. -/
theorem dump_impl_eq_compact (nrepr : DNode → String) (nd : DNode) (ind : String)
    (d : Nat) (h : ind = "" ∨ nd.fields = []) :
    dump_impl nrepr nd ind d = dump_compact_render nrepr nd := by
  cases nd with
  | mk c fields =>
    dsimp only [DNode.fields] at h
    unfold dump_impl dump_compact_render
    dsimp only [DNode.className, DNode.fields]
    rw [if_neg]
    rcases h with h | h <;> simp [h]

/-- C6: `dump` is deterministic — for any two structurally identical trees
(same node types, same field iteration order, same field values: equal as
`DNode` values, under the same external field schema `nrepr`) and any fixed
indent setting, it produces byte-identical output on every call (the
embedding is a pure function of exactly these inputs: there is no hidden
state the output could depend on) — and the field markers `name=` appear in
the output in the node's own declared iteration order, never alphabetized
or reordered. -/
theorem dump_deterministic_fields_in_order (nrepr : DNode → String) (t1 t2 : DNode)
    (ind : PyIndent) (h : t1 = t2) :
    dump nrepr t1 ind = dump nrepr t2 ind ∧
    ContainsInOrder (dump nrepr t1 ind) (t1.fields.map fun p => p.1 ++ "=") := by
  subst h
  refine ⟨rfl, ?_⟩
  unfold dump
  exact dump_impl_fields_ordered nrepr t1 _ 0

/-- Witness for C6 at a two-field `Script` node with indent 2. -/
theorem dump_deterministic_fields_in_order_witness :
    dump (fun _ => "") nodeW (.intV 2) = dump (fun _ => "") nodeW (.intV 2) ∧
    ContainsInOrder (dump (fun _ => "") nodeW (.intV 2))
      (nodeW.fields.map fun p => p.1 ++ "=") :=
  dump_deterministic_fields_in_order (fun _ => "") nodeW nodeW (.intV 2) rfl

/-- C7: a node whose field mapping is empty renders in the compact
single-line form `TypeName()` for every indent setting, including non-empty
indents; and the multi-line form is used only when both a non-empty indent
is given and the node has at least one field (whenever either fails, the
output is the compact single-line rendering). -/
theorem dump_empty_fields_always_compact (nrepr : DNode → String) (node : DNode)
    (ind : String) (d : Nat) (h : node.fields = []) :
    dump_impl nrepr node ind d = node.className ++ "()" ∧
    (∀ (n2 : DNode) (i2 : String) (d2 : Nat), i2 = "" ∨ n2.fields = [] →
      dump_impl nrepr n2 i2 d2 = dump_compact_render nrepr n2) := by
  constructor
  · rw [dump_impl_eq_compact nrepr node ind d (Or.inr h)]
    unfold dump_compact_render
    rw [h]
    dsimp only [List.map, pyJoin]
    rw [String.append_empty, String.append_assoc]
    rfl
  · exact fun n2 i2 d2 h2 => dump_impl_eq_compact nrepr n2 i2 d2 h2

/-- Witness for C7 at a zero-field node with the non-empty indent `"  "`. -/
theorem dump_empty_fields_always_compact_witness :
    dump_impl (fun _ => "") (DNode.mk ("Script") []) "  " 3
      = (DNode.mk ("Script") []).className ++ "()" ∧
    (∀ (n2 : DNode) (i2 : String) (d2 : Nat), i2 = "" ∨ n2.fields = [] →
      dump_impl (fun _ => "") n2 i2 d2 = dump_compact_render (fun _ => "") n2) :=
  dump_empty_fields_always_compact (fun _ => "") (DNode.mk ("Script") []) "  " 3 rfl

/-- C9: for every node and every integer indent value less than or equal to
zero (including negative integers), `dump` behaves exactly as with the
indent absent: the integer is converted to a string of `max(indent, 0)`
spaces — the empty string — so the output is the compact single-line
form. -/
theorem dump_nonpositive_int_indent_compact (nrepr : DNode → String) (node : DNode)
    (i : Int) (h : i ≤ 0) :
    dump nrepr node (.intV i) = dump nrepr node .noneV ∧
    dump nrepr node (.intV i) = dump_compact_render nrepr node := by
  have hz : i.toNat = 0 := Int.toNat_of_nonpos h
  unfold dump
  dsimp only
  rw [hz]
  exact ⟨rfl, dump_impl_eq_compact nrepr node (strMul (" ") 0) 0 (Or.inl rfl)⟩

/-- Witness for C9 at indent `-3`. -/
theorem dump_nonpositive_int_indent_compact_witness :
    dump (fun _ => "") nodeW (.intV (-3)) = dump (fun _ => "") nodeW .noneV ∧
    dump (fun _ => "") nodeW (.intV (-3)) = dump_compact_render (fun _ => "") nodeW :=
  dump_nonpositive_int_indent_compact (fun _ => "") nodeW (-3) (by decide)
